import Mathlib

/-!
# SyncStream — Room Coordination & Media Synchronization Engine, verified model

A shallow embedding of the SyncStream repository's core:

* `server/state.js` — the room registry (`createRoom`, `getRoom`, `deleteRoom`,
  `addParticipant`, `removeParticipant`, `promoteLeader`);
* `server.js` — the socket event handlers (`join_room`, `leader_state`,
  `control`, `media_cleared`, `promote_leader`, `kick_participant`,
  `create_share_token`, `approve_participant`, `reject_participant`,
  `leader_leave_room`, `snapshot_request`, `disconnect`), modelled as a step
  function on an explicit server state, returning the list of emitted messages;
* the client `SyncEngine` (drift correction, clock-offset estimation) and the
  client `control_update` handler from `socket.ts`, modelled over `ℚ`.

JavaScript plain objects used as string-keyed maps are modelled as association
lists with lookup / insert-or-replace / delete operations.  JavaScript number
arithmetic is idealised as exact rational arithmetic; `Date.now()` timestamps
are integers (milliseconds) passed explicitly to each operation.
-/

namespace SyncStream

/-! ## JS-object maps: association lists keyed by strings -/

/-- Lookup of `obj[k]` on a JS object modelled as an association list. -/
def olookup {A : Type} : List (String × A) → String → Option A
  | [], _ => none
  | (k2, v) :: rest, k => if k2 = k then some v else olookup rest k

/-- `obj[k] = v` on a JS object: replace the binding if the key is present,
append it otherwise. -/
def oinsert {A : Type} : List (String × A) → String → A → List (String × A)
  | [], k, v => [(k, v)]
  | (k2, v2) :: rest, k, v =>
    if k2 = k then (k2, v) :: rest else (k2, v2) :: oinsert rest k v

/-- `delete obj[k]` on a JS object: remove the key. -/
def oerase {A : Type} : List (String × A) → String → List (String × A)
  | [], _ => []
  | (k2, v2) :: rest, k =>
    if k2 = k then oerase rest k else (k2, v2) :: oerase rest k

theorem olookup_oinsert {A : Type} (m : List (String × A)) (k k' : String) (v : A) :
    olookup (oinsert m k v) k' = if k = k' then some v else olookup m k' := by
  induction m with
  | nil => by_cases h : k = k' <;> simp [oinsert, olookup, h]
  | cons p rest ih =>
    obtain ⟨k2, v2⟩ := p
    by_cases h2 : k2 = k
    · subst h2
      by_cases h : k2 = k' <;> simp [oinsert, olookup, h]
    · simp only [oinsert, if_neg h2]
      by_cases h : k2 = k'
      · subst h
        have : ¬ k = k2 := fun hk => h2 hk.symm
        simp [olookup, this]
      · simp [olookup, h, ih]

theorem olookup_oerase {A : Type} (m : List (String × A)) (k k' : String) :
    olookup (oerase m k) k' = if k = k' then none else olookup m k' := by
  induction m with
  | nil => by_cases h : k = k' <;> simp [oerase, olookup, h]
  | cons p rest ih =>
    obtain ⟨k2, v2⟩ := p
    by_cases h2 : k2 = k
    · subst h2
      by_cases h : k2 = k'
      · subst h
        simpa [oerase] using ih
      · simp [oerase, olookup, h, ih]
    · simp only [oerase, if_neg h2]
      by_cases h : k2 = k'
      · subst h
        have : ¬ k = k2 := fun hk => h2 hk.symm
        simp [olookup, this, ih, h2]
      · simp [olookup, h, ih]

theorem oinsert_ne_nil {A : Type} (m : List (String × A)) (k : String) (v : A) :
    oinsert m k v ≠ [] := by
  cases m with
  | nil => simp [oinsert]
  | cons p rest =>
    obtain ⟨k2, v2⟩ := p
    by_cases h : k2 = k <;> simp [oinsert, h]

/-- Emptiness of a JS object, `Object.keys(obj).length === 0`, is emptiness of
the association list. -/
theorem olookup_isSome_of_ne_nil {A : Type} (m : List (String × A)) (h : m ≠ []) :
    ∃ k, (olookup m k).isSome := by
  cases m with
  | nil => exact absurd rfl h
  | cons p rest => exact ⟨p.1, by simp [olookup]⟩

/-! ## Client `SyncEngine` (src/unnamed/part_000), over `ℚ` -/

/-- `DRIFT_HISTORY_SIZE = 10`. -/
def DRIFT_HISTORY_SIZE : Nat := 10

/-- `MAX_DRIFT_MS = 150` — target sync accuracy, in milliseconds. -/
def MAX_DRIFT_MS : ℚ := 150

/-- `calculateServerOffset`: probe sent at local time `t0`, answered with
server timestamp `S`, received at local time `t1`.
`roundTripTime = t1 - t0`; `estimatedServerNow = S + roundTripTime / 2`;
`serverOffset = estimatedServerNow - t1`. -/
def calculateServerOffset (t0 t1 S : ℚ) : ℚ :=
  let roundTripTime := t1 - t0
  let estimatedServerNow := S + roundTripTime / 2
  estimatedServerNow - t1

/-- `getServerTime(localTime) = localTime + serverOffset`. -/
def getServerTime (serverOffset localTime : ℚ) : ℚ :=
  localTime + serverOffset

/-- `calculateCurrentMediaTime`: paused ⇒ the leader's media time unchanged;
playing ⇒ extrapolate by the time elapsed since the leader's timestamp,
measured on the estimated server clock, converted from ms to seconds. -/
def calculateCurrentMediaTime (serverOffset localNow leaderMediaTime leaderServerTs : ℚ)
    (isPlaying : Bool) : ℚ :=
  if !isPlaying then leaderMediaTime
  else
    let currentServerTime := getServerTime serverOffset localNow
    let timeSinceLeaderUpdate := (currentServerTime - leaderServerTs) / 1000
    leaderMediaTime + timeSinceLeaderUpdate

/-- `calculateDrift(expected, actual) = actual - expected`. -/
def calculateDrift (expectedTime actualTime : ℚ) : ℚ :=
  actualTime - expectedTime

/-- `recordDrift`: push onto the history, then shift the front off while the
length exceeds `DRIFT_HISTORY_SIZE`. -/
def recordDrift (driftHistory : List ℚ) (drift : ℚ) : List ℚ :=
  let h := driftHistory ++ [drift]
  if DRIFT_HISTORY_SIZE < h.length then h.drop 1 else h

/-- `shouldCorrectDrift(drift) = |drift| > MAX_DRIFT_MS / 1000`. -/
def shouldCorrectDrift (drift : ℚ) : Bool :=
  |drift| > MAX_DRIFT_MS / 1000

/-- `calculateCorrectionAmount`: gentle `drift * 0.1` below half a second of
drift, `drift * 0.5` from half a second up. -/
def calculateCorrectionAmount (drift : ℚ) : ℚ :=
  if |drift| < 1/2 then drift * (1/10)
  else drift * (1/2)

/-- `applyCorrectionIfNeeded`: record the drift, and when `shouldCorrectDrift`
holds seek to `actualTime - calculateCorrectionAmount drift` (the `onSeek`
callback is modelled by returning the seek target). Returns the new history
and the optional seek target. -/
def applyCorrectionIfNeeded (driftHistory : List ℚ) (expectedTime actualTime : ℚ) :
    List ℚ × Option ℚ :=
  let drift := calculateDrift expectedTime actualTime
  let driftHistory2 := recordDrift driftHistory drift
  if shouldCorrectDrift drift then
    (driftHistory2, some (actualTime - calculateCorrectionAmount drift))
  else
    (driftHistory2, none)

/-! ## Data model (server/state.js and server.js)

`participants` maps socketId to the display name (the JS value is `{ name }`).
`pendingRequests` and `shareTokens` are created lazily in JS (`if
(!room.pendingRequests) ...`); an absent map and an empty map are
observationally identical for every access the server performs, so both are
modelled as the empty association list. -/

/-- A pending join request: `{ socketId, name, timestamp }`. -/
structure PendingReq where
  socketId : String
  name : String
  timestamp : Int
deriving DecidableEq, Repr

/-- A share token record: `{ createdAt, createdBy, expiresAt }` (ms). -/
structure TokenData where
  createdAt : Int
  createdBy : String
  expiresAt : Int
deriving DecidableEq, Repr

/-- A room, as created by `createRoom` in state.js (plus the lazily-added
`pendingRequests` and `shareTokens` maps from server.js). -/
structure Room where
  leaderId : Option String
  mediaKind : Option String
  mediaRef : Option String
  isPlaying : Bool
  leaderMediaTime : ℚ
  leaderServerTs : Int
  participants : List (String × String)
  pendingRequests : List (String × PendingReq)
  shareTokens : List (String × TokenData)
deriving DecidableEq, Repr

/-- The fresh room object built by `createRoom`. -/
def emptyRoom : Room :=
  { leaderId := none
    mediaKind := none
    mediaRef := none
    isPlaying := false
    leaderMediaTime := 0
    leaderServerTs := 0
    participants := []
    pendingRequests := []
    shareTokens := [] }

/-- The registry `rooms`: roomId → Room. -/
abbrev Registry : Type := List (String × Room)

/-- JS truthiness of an optional string: `null`/`undefined` and `""` are falsy. -/
def jsTruthy : Option String → Bool
  | none => false
  | some s => s ≠ ""

/-! ## Room Registry (server/state.js) -/

/-- `createRoom(roomId)`: create the room if absent; returns the (updated)
registry together with the room object the JS function returns. -/
def createRoom (rooms : Registry) (roomId : String) : Registry × Room :=
  match olookup rooms roomId with
  | some room => (rooms, room)
  | none => (oinsert rooms roomId emptyRoom, emptyRoom)

/-- `getRoom(roomId)`. -/
def getRoom (rooms : Registry) (roomId : String) : Option Room :=
  olookup rooms roomId

/-- `deleteRoom(roomId)`. -/
def deleteRoom (rooms : Registry) (roomId : String) : Registry :=
  oerase rooms roomId

/-- `addParticipant(roomId, socketId, name)`: create the room if needed, set
`participants[socketId] = { name }`, and if the room has no (truthy) leader
make this participant the leader.  Returns the updated registry and the room
the JS function returns. -/
def addParticipant (rooms : Registry) (roomId socketId name : String) : Registry × Room :=
  let c := createRoom rooms roomId
  let room1 := { c.2 with participants := oinsert c.2.participants socketId name }
  let room2 :=
    if jsTruthy room1.leaderId then room1
    else { room1 with leaderId := some socketId }
  (oinsert c.1 roomId room2, room2)

/-- `removeParticipant(roomId, socketId)`: delete the participant; if the
removed participant was the leader, or no participants remain, delete the
whole room and return `null`; otherwise return the updated room. -/
def removeParticipant (rooms : Registry) (roomId socketId : String) :
    Registry × Option Room :=
  match olookup rooms roomId with
  | none => (rooms, none)
  | some room =>
    let wasLeader := room.leaderId = some socketId
    let room1 := { room with participants := oerase room.participants socketId }
    if wasLeader then (deleteRoom rooms roomId, none)
    else if room1.participants = [] then (deleteRoom rooms roomId, none)
    else (oinsert rooms roomId room1, some room1)

/-- `promoteLeader(roomId, newLeaderId)`: succeeds only when the room exists
and the target is a current participant. -/
def promoteLeader (rooms : Registry) (roomId newLeaderId : String) :
    Registry × Option Room :=
  match olookup rooms roomId with
  | none => (rooms, none)
  | some room =>
    if (olookup room.participants newLeaderId).isSome then
      let room1 := { room with leaderId := some newLeaderId }
      (oinsert rooms roomId room1, some room1)
    else (rooms, none)

/-! ## Server state and emitted messages (server.js)

Beyond the registry, the server's observable state includes the set of live
socket connections (`io.sockets.sockets`), each socket's transport-level room
membership (`socket.rooms`, populated by `socket.join` / `socket.leave`), and
the pending join acknowledgment callbacks hung off socket objects
(`socket.joinCallback`, `socket.pendingRoomId`, `socket.pendingName`). -/

/-- Whole-server state. `joined` maps a socketId to the roomIds it has
`socket.join`ed (its own-id room is omitted); `joinCallbacks` maps a socketId
to `(pendingRoomId, pendingName)` and its presence models a stored
`socket.joinCallback`. -/
structure SrvState where
  rooms : Registry
  connected : List String
  joined : List (String × List String)
  joinCallbacks : List (String × (String × String))
deriving DecidableEq, Repr

/-- The rooms a socket has joined, according to a `joined` map. -/
def chanList (joined : List (String × List String)) (socketId : String) : List String :=
  (olookup joined socketId).getD []

/-- `socket.rooms` of a socket (own-id room omitted). -/
def channels (st : SrvState) (socketId : String) : List String :=
  chanList st.joined socketId

/-- `socket.join(roomId)`: socket.io room sets do not duplicate. -/
def joinChannel (joined : List (String × List String)) (socketId roomId : String) :
    List (String × List String) :=
  let cur := (olookup joined socketId).getD []
  if roomId ∈ cur then joined else oinsert joined socketId (cur ++ [roomId])

/-- `socket.leave(roomId)`. -/
def leaveChannel (joined : List (String × List String)) (socketId roomId : String) :
    List (String × List String) :=
  match olookup joined socketId with
  | none => joined
  | some cur => oinsert joined socketId (cur.erase roomId)

/-- Every socket leaves `roomId` (the loop at the end of `leader_leave_room`). -/
def leaveChannelAll (joined : List (String × List String)) (roomId : String) :
    List (String × List String) :=
  joined.map (fun p => (p.1, p.2.erase roomId))

/-- The `roomState` object sent in `join_room` acknowledgments. -/
structure RoomStateSnap where
  mediaKind : Option String
  mediaRef : Option String
  isPlaying : Bool
  leaderMediaTime : ℚ
  leaderServerTs : Int
deriving DecidableEq, Repr

/-- Build the `roomState` payload from a room. -/
def roomSnap (room : Room) : RoomStateSnap :=
  { mediaKind := room.mediaKind
    mediaRef := room.mediaRef
    isPlaying := room.isPlaying
    leaderMediaTime := room.leaderMediaTime
    leaderServerTs := room.leaderServerTs }

/-- A `join_room` acknowledgment: success payload or `{ error }`. -/
inductive CbResp where
  | ok (participantId : String) (isLeader : Bool) (roomState : RoomStateSnap)
  | err (message : String)
deriving DecidableEq, Repr

/-- The socket events the server emits, with their payloads. -/
inductive Msg where
  | participantJoined (participantId name : String) (participants : List (String × String))
  | participantJoinRequest (requestId participantName : String)
  | syncState (leaderMediaTime : ℚ) (leaderServerTs : Int) (isPlaying : Bool)
      (mediaKind mediaRef : Option String)
  | controlUpdate (ctrlType : String) (toTime : Option ℚ) (leaderMediaTime : ℚ)
      (leaderServerTs : Int) (isPlaying : Bool)
  | mediaClearedMsg
  | leaderChanged (newLeaderId : String) (participants : List (String × String))
  | participantLeft (participantId : String) (participants : List (String × String))
      (newLeaderId : Option String) (reason : Option String)
      (kickedParticipantName : Option String)
  | participantKicked (reason : String)
  | participantKickedNotification (participantId participantName kickedBy : String)
  | roomClosed (reason : String)
  | snapshotResponse (mediaKind mediaRef : Option String) (isPlaying : Bool)
      (leaderMediaTime : ℚ) (leaderServerTs : Int) (leaderId : Option String)
      (participants : List (String × String))
deriving DecidableEq, Repr

/-- An emission: which transport primitive delivered which message. -/
inductive Emit where
  | toRoomExcept (target sender : String) (msg : Msg)
  | toRoom (roomId : String) (msg : Msg)
  | toSocket (socketId : String) (msg : Msg)
  | callbackTo (socketId : String) (resp : CbResp)
deriving DecidableEq, Repr

/-! ## Socket event handlers (server.js)

Each handler takes the server state, the sender socket id, the event payload
and the current `Date.now()` value, and returns the new state plus the list of
emissions, in execution order. -/

/-- The direct-join branch of `join_room` (no existing room, or no truthy
leader): `socket.join`, `addParticipant`, acknowledge with
`isLeader = (room.leaderId === socket.id)`, notify `participant_joined`. -/
def onJoinRoomDirect (st : SrvState) (sender roomId name : String) :
    SrvState × List Emit :=
  let a := addParticipant st.rooms roomId sender name
  ({ st with rooms := a.1, joined := joinChannel st.joined sender roomId },
   [Emit.callbackTo sender (CbResp.ok sender (a.2.leaderId = some sender) (roomSnap a.2)),
    Emit.toRoomExcept roomId sender (Msg.participantJoined sender name a.2.participants)])

/-- The valid-share-token branch of `join_room`: `socket.join`,
`addParticipant`, acknowledge with `isLeader: false`, notify
`participant_joined`. -/
def onJoinRoomViaToken (st : SrvState) (sender roomId name : String) :
    SrvState × List Emit :=
  let a := addParticipant st.rooms roomId sender name
  ({ st with rooms := a.1, joined := joinChannel st.joined sender roomId },
   [Emit.callbackTo sender (CbResp.ok sender false (roomSnap a.2)),
    Emit.toRoomExcept roomId sender (Msg.participantJoined sender name a.2.participants)])

/-- The expired-share-token branch of `join_room`: lazily purge the token and
answer with the distinct expired-link error. -/
def onJoinRoomExpiredToken (st : SrvState) (sender roomId : String) (tok : String)
    (existingRoom : Room) : SrvState × List Emit :=
  let room1 := { existingRoom with shareTokens := oerase existingRoom.shareTokens tok }
  ({ st with rooms := oinsert st.rooms roomId room1 },
   [Emit.callbackTo sender
      (CbResp.err "Share link has expired. Please request a new one from the room leader.")])

/-- The approval-gated branch of `join_room`: store a pending request keyed
`"<socketId>_<Date.now()>"`, forward `participant_join_request` to the leader,
and park the acknowledgment callback on the socket. -/
def onJoinRoomPending (st : SrvState) (sender roomId name lid : String) (now : Int)
    (existingRoom : Room) : SrvState × List Emit :=
  let requestId := sender ++ "_" ++ toString now
  let room1 := { existingRoom with
    pendingRequests :=
      oinsert existingRoom.pendingRequests requestId
        { socketId := sender, name := name, timestamp := now } }
  ({ st with rooms := oinsert st.rooms roomId room1,
             joinCallbacks := oinsert st.joinCallbacks sender (roomId, name) },
   [Emit.toRoomExcept lid sender (Msg.participantJoinRequest requestId name)])

/-- The `join_room` handler; dispatches among the four branches following the
JS conditionals (truthiness of the room's leader and of the presented token
included). -/
def onJoinRoom (st : SrvState) (sender roomId name : String)
    (shareToken : Option String) (now : Int) : SrvState × List Emit :=
  match getRoom st.rooms roomId with
  | none => onJoinRoomDirect st sender roomId name
  | some existingRoom =>
    match existingRoom.leaderId with
    | none => onJoinRoomDirect st sender roomId name
    | some lid =>
      if lid = "" then onJoinRoomDirect st sender roomId name
      else
        match shareToken with
        | none => onJoinRoomPending st sender roomId name lid now existingRoom
        | some tok =>
          if tok = "" then onJoinRoomPending st sender roomId name lid now existingRoom
          else
            match olookup existingRoom.shareTokens tok with
            | none => onJoinRoomPending st sender roomId name lid now existingRoom
            | some tokenData =>
              if now < tokenData.expiresAt then
                onJoinRoomViaToken st sender roomId name
              else
                onJoinRoomExpiredToken st sender roomId tok existingRoom

/-- The `leader_state` handler: dropped unless the sender is the room's
leader; otherwise updates the media fields, stamps `leaderServerTs`, and
broadcasts `sync_state` to the other room members. -/
def onLeaderState (st : SrvState) (sender roomId : String) (mediaTime : ℚ)
    (isPlaying : Bool) (mediaKind mediaRef : Option String) (now : Int) :
    SrvState × List Emit :=
  match getRoom st.rooms roomId with
  | none => (st, [])
  | some room =>
    if room.leaderId ≠ some sender then (st, [])
    else
      let room1 := { room with
        leaderMediaTime := mediaTime, leaderServerTs := now, isPlaying := isPlaying }
      let room2 := if jsTruthy mediaKind then { room1 with mediaKind := mediaKind } else room1
      let room3 := if jsTruthy mediaRef then { room2 with mediaRef := mediaRef } else room2
      ({ st with rooms := oinsert st.rooms roomId room3 },
       [Emit.toRoomExcept roomId sender
          (Msg.syncState mediaTime room3.leaderServerTs isPlaying room3.mediaKind room3.mediaRef)])

/-- The `control` handler: dropped unless the sender is the room's leader;
`PLAY`/`PAUSE` set `isPlaying` and stamp `leaderServerTs`; `SEEK` updates
`leaderMediaTime` only for a numeric `toTime`; the resulting canonical state
is then broadcast as `control_update` to the whole room (leader included). -/
def onControl (st : SrvState) (sender roomId ctrlType : String) (toTime : Option ℚ)
    (now : Int) : SrvState × List Emit :=
  match getRoom st.rooms roomId with
  | none => (st, [])
  | some room =>
    if room.leaderId ≠ some sender then (st, [])
    else
      let room1 :=
        if ctrlType = "PLAY" then { room with isPlaying := true, leaderServerTs := now }
        else if ctrlType = "PAUSE" then { room with isPlaying := false, leaderServerTs := now }
        else if ctrlType = "SEEK" then
          match toTime with
          | some t => { room with leaderMediaTime := t, leaderServerTs := now }
          | none => room
        else room
      ({ st with rooms := oinsert st.rooms roomId room1 },
       [Emit.toRoom roomId
          (Msg.controlUpdate ctrlType toTime room1.leaderMediaTime room1.leaderServerTs
            room1.isPlaying)])

/-- The `media_cleared` handler: leader-only; resets the media fields and
broadcasts `media_cleared` to the whole room. -/
def onMediaCleared (st : SrvState) (sender roomId : String) (now : Int) :
    SrvState × List Emit :=
  match getRoom st.rooms roomId with
  | none => (st, [])
  | some room =>
    if room.leaderId ≠ some sender then (st, [])
    else
      let room1 := { room with
        mediaKind := none, mediaRef := none, isPlaying := false,
        leaderMediaTime := 0, leaderServerTs := now }
      ({ st with rooms := oinsert st.rooms roomId room1 },
       [Emit.toRoom roomId Msg.mediaClearedMsg])

/-- The `promote_leader` handler: current-leader-only; on success broadcasts
`leader_changed` to the whole room. -/
def onPromoteLeader (st : SrvState) (sender roomId participantId : String) :
    SrvState × List Emit :=
  match getRoom st.rooms roomId with
  | none => (st, [])
  | some room =>
    if room.leaderId ≠ some sender then (st, [])
    else
      let p := promoteLeader st.rooms roomId participantId
      match p.2 with
      | some updatedRoom =>
        ({ st with rooms := p.1 },
         [Emit.toRoom roomId (Msg.leaderChanged participantId updatedRoom.participants)])
      | none => ({ st with rooms := p.1 }, [])

/-- The `kick_participant` handler: leader-only, never the leader itself; the
target (when still connected) is notified and leaves the transport room; the
registry removal then drives the `participant_left` notifications. -/
def onKickParticipant (st : SrvState) (sender roomId participantId : String) :
    SrvState × List Emit :=
  match getRoom st.rooms roomId with
  | none => (st, [])
  | some room =>
    if room.leaderId ≠ some sender then (st, [])
    else if participantId = sender then (st, [])
    else
      let isConn := participantId ∈ st.connected
      let participantName :=
        match olookup room.participants participantId with
        | some n => if n = "" then "Unknown" else n
        | none => "Unknown"
      let kickEmits :=
        if isConn then [Emit.toSocket participantId (Msg.participantKicked "Removed by room leader")]
        else []
      let joined1 := if isConn then leaveChannel st.joined participantId roomId else st.joined
      let r := removeParticipant st.rooms roomId participantId
      let leftEmits :=
        match r.2 with
        | some updatedRoom =>
          [Emit.toRoomExcept roomId sender
             (Msg.participantLeft participantId updatedRoom.participants updatedRoom.leaderId
               (some "kicked") (some participantName)),
           Emit.toRoomExcept roomId sender
             (Msg.participantKickedNotification participantId participantName "leader")]
        | none => []
      ({ st with rooms := r.1, joined := joined1 }, kickEmits ++ leftEmits)

/-- The `create_share_token` handler: leader-only; stores the caller-supplied
token with a 24-hour expiry; nothing is emitted. -/
def onCreateShareToken (st : SrvState) (sender roomId shareToken : String) (now : Int) :
    SrvState × List Emit :=
  match getRoom st.rooms roomId with
  | none => (st, [])
  | some room =>
    if room.leaderId ≠ some sender then (st, [])
    else
      let room1 := { room with
        shareTokens :=
          oinsert room.shareTokens shareToken
            { createdAt := now, createdBy := sender, expiresAt := now + 24 * 60 * 60 * 1000 } }
      ({ st with rooms := oinsert st.rooms roomId room1 }, [])

/-- The `approve_participant` handler: leader-only; a request whose requester
socket is gone (or holds no parked callback) is discarded without admitting
anyone; otherwise the requester joins, is acknowledged as a non-leader, and
the request and the parked callback are cleaned up. -/
def onApproveParticipant (st : SrvState) (sender roomId requestId : String) :
    SrvState × List Emit :=
  match getRoom st.rooms roomId with
  | none => (st, [])
  | some room =>
    if room.leaderId ≠ some sender then (st, [])
    else
      match olookup room.pendingRequests requestId with
      | none => (st, [])
      | some request =>
        if request.socketId ∈ st.connected ∧ (olookup st.joinCallbacks request.socketId).isSome then
          let a := addParticipant st.rooms roomId request.socketId request.name
          let room3 := { a.2 with pendingRequests := oerase a.2.pendingRequests requestId }
          ({ st with rooms := oinsert a.1 roomId room3,
                     joined := joinChannel st.joined request.socketId roomId,
                     joinCallbacks := oerase st.joinCallbacks request.socketId },
           [Emit.callbackTo request.socketId (CbResp.ok request.socketId false (roomSnap a.2)),
            Emit.toRoomExcept roomId request.socketId
              (Msg.participantJoined request.socketId request.name a.2.participants)])
        else
          let cleaned := { room with pendingRequests := oerase room.pendingRequests requestId }
          ({ st with rooms := oinsert st.rooms roomId cleaned }, [])

/-- The `reject_participant` handler: leader-only; the requester (when still
connected with a parked callback) gets the distinct rejection error; the
request is discarded either way. -/
def onRejectParticipant (st : SrvState) (sender roomId requestId : String) :
    SrvState × List Emit :=
  match getRoom st.rooms roomId with
  | none => (st, [])
  | some room =>
    if room.leaderId ≠ some sender then (st, [])
    else
      match olookup room.pendingRequests requestId with
      | none => (st, [])
      | some request =>
        let hasCb : Bool :=
          request.socketId ∈ st.connected ∧ (olookup st.joinCallbacks request.socketId).isSome
        let ems :=
          if hasCb then
            [Emit.callbackTo request.socketId
               (CbResp.err "Join request was rejected by the room leader")]
          else []
        let cbs := if hasCb then oerase st.joinCallbacks request.socketId else st.joinCallbacks
        let cleaned := { room with pendingRequests := oerase room.pendingRequests requestId }
        ({ st with rooms := oinsert st.rooms roomId cleaned, joinCallbacks := cbs }, ems)

/-- The `leader_leave_room` handler: leader-only; broadcasts `room_closed` to
the whole room, deletes the room, and makes every socket leave the transport
room. -/
def onLeaderLeaveRoom (st : SrvState) (sender roomId : String) :
    SrvState × List Emit :=
  match getRoom st.rooms roomId with
  | none => (st, [])
  | some room =>
    if room.leaderId ≠ some sender then (st, [])
    else
      ({ st with rooms := deleteRoom st.rooms roomId,
                 joined := leaveChannelAll st.joined roomId },
       [Emit.toRoom roomId (Msg.roomClosed "Leader left the room")])

/-- The `snapshot_request` handler: answered directly to the requester only. -/
def onSnapshotRequest (st : SrvState) (sender roomId : String) :
    SrvState × List Emit :=
  match getRoom st.rooms roomId with
  | none => (st, [])
  | some room =>
    (st,
     [Emit.toSocket sender
        (Msg.snapshotResponse room.mediaKind room.mediaRef room.isPlaying
          room.leaderMediaTime room.leaderServerTs room.leaderId room.participants)])

/-- One room of the `disconnect` handler's loop: remove the departing socket
from the registry room; a destroyed room announces `room_closed` when the
departer led it, a surviving room announces `participant_left` (and
`leader_changed` whenever the removal somehow changed the leader). -/
def disconnectRoomStep (sender : String) (acc : SrvState × List Emit) (roomId : String) :
    SrvState × List Emit :=
  let st := acc.1
  let wasLeader : Bool :=
    match getRoom st.rooms roomId with
    | some room => room.leaderId = some sender
    | none => false
  let r := removeParticipant st.rooms roomId sender
  match r.2 with
  | none =>
    if wasLeader then
      ({ st with rooms := r.1 },
       acc.2 ++ [Emit.toRoomExcept roomId sender (Msg.roomClosed "Leader left the room")])
    else ({ st with rooms := r.1 }, acc.2)
  | some updatedRoom =>
    let e1 :=
      [Emit.toRoomExcept roomId sender
         (Msg.participantLeft sender updatedRoom.participants updatedRoom.leaderId none none)]
    let e2 :=
      match updatedRoom.leaderId with
      | some newLeader =>
        if newLeader ≠ "" ∧ newLeader ≠ sender then
          [Emit.toRoomExcept roomId sender (Msg.leaderChanged newLeader updatedRoom.participants)]
        else []
      | none => []
    ({ st with rooms := r.1 }, acc.2 ++ e1 ++ e2)

/-- The `disconnect` handler: clean up every room the socket had joined, then
drop the socket — its connection entry, its transport memberships, and any
parked join callback die with it. -/
def onDisconnect (st : SrvState) (sender : String) : SrvState × List Emit :=
  let folded := (channels st sender).foldl (disconnectRoomStep sender) (st, [])
  ({ folded.1 with
       connected := folded.1.connected.filter (fun x => x ≠ sender),
       joined := oerase folded.1.joined sender,
       joinCallbacks := oerase folded.1.joinCallbacks sender },
   folded.2)

/-- A new socket connection. -/
def onConnect (st : SrvState) (socketId : String) : SrvState × List Emit :=
  ({ st with connected :=
       if socketId ∈ st.connected then st.connected else socketId :: st.connected },
   [])

/-! ## The server as a transition system -/

/-- One server operation: a connection lifecycle event or a socket message
with its payload and arrival time. -/
inductive Op where
  | connect (socketId : String)
  | joinRoom (sender roomId name : String) (shareToken : Option String) (now : Int)
  | leaderState (sender roomId : String) (mediaTime : ℚ) (isPlaying : Bool)
      (mediaKind mediaRef : Option String) (now : Int)
  | control (sender roomId ctrlType : String) (toTime : Option ℚ) (now : Int)
  | mediaCleared (sender roomId : String) (now : Int)
  | promoteLeader (sender roomId participantId : String)
  | kickParticipant (sender roomId participantId : String)
  | createShareToken (sender roomId shareToken : String) (now : Int)
  | approveParticipant (sender roomId requestId : String)
  | rejectParticipant (sender roomId requestId : String)
  | leaderLeaveRoom (sender roomId : String)
  | snapshotRequest (sender roomId : String)
  | disconnect (sender : String)
deriving DecidableEq, Repr

/-- Dispatch an operation to its handler. -/
def applyOp (st : SrvState) (op : Op) : SrvState × List Emit :=
  match op with
  | Op.connect socketId => onConnect st socketId
  | Op.joinRoom sender roomId name shareToken now => onJoinRoom st sender roomId name shareToken now
  | Op.leaderState sender roomId mediaTime isPlaying mediaKind mediaRef now =>
    onLeaderState st sender roomId mediaTime isPlaying mediaKind mediaRef now
  | Op.control sender roomId ctrlType toTime now => onControl st sender roomId ctrlType toTime now
  | Op.mediaCleared sender roomId now => onMediaCleared st sender roomId now
  | Op.promoteLeader sender roomId participantId => onPromoteLeader st sender roomId participantId
  | Op.kickParticipant sender roomId participantId => onKickParticipant st sender roomId participantId
  | Op.createShareToken sender roomId shareToken now => onCreateShareToken st sender roomId shareToken now
  | Op.approveParticipant sender roomId requestId => onApproveParticipant st sender roomId requestId
  | Op.rejectParticipant sender roomId requestId => onRejectParticipant st sender roomId requestId
  | Op.leaderLeaveRoom sender roomId => onLeaderLeaveRoom st sender roomId
  | Op.snapshotRequest sender roomId => onSnapshotRequest st sender roomId
  | Op.disconnect sender => onDisconnect st sender

/-- The state of a freshly started server process. -/
def initState : SrvState :=
  { rooms := [], connected := [], joined := [], joinCallbacks := [] }

/-- Apply a list of operations in order, discarding emissions. -/
def applyOps (st : SrvState) (ops : List Op) : SrvState :=
  ops.foldl (fun s op => (applyOp s op).1) st

/-- The states the server can reach from process start. -/
inductive Reachable : SrvState → Prop
  | init : Reachable initState
  | step : ∀ (st : SrvState) (op : Op), Reachable st → Reachable (applyOp st op).1

/-! ## Client store: the `control_update` handler (socket.ts) -/

/-- The slice of the client store the `control_update` handler touches:
the sync engine's offset and drift history, and the mirrored room playback
state. -/
structure ClientState where
  serverOffset : ℚ
  driftHistory : List ℚ
  isPlaying : Bool
  currentTime : ℚ
deriving DecidableEq, Repr

/-- The client `control_update` handler: a `SEEK` with a numeric `toTime`
adopts it as the current time and resets the drift history; every other
update recomputes the current time by leader-state extrapolation; `isPlaying`
is adopted either way. -/
def onControlUpdate (cs : ClientState) (ctrlType : String) (toTime : Option ℚ)
    (leaderMediaTime leaderServerTs localNow : ℚ) (isPlaying : Bool) : ClientState :=
  let fallbackTime :=
    calculateCurrentMediaTime cs.serverOffset localNow leaderMediaTime leaderServerTs isPlaying
  if ctrlType = "SEEK" then
    match toTime with
    | some t => { cs with currentTime := t, driftHistory := [], isPlaying := isPlaying }
    | none => { cs with currentTime := fallbackTime, isPlaying := isPlaying }
  else { cs with currentTime := fallbackTime, isPlaying := isPlaying }

/-! ## Concrete scenario states (used by witnesses and counterexamples) -/

/-- Scenario: leader `L` opens room `R1`, follower `P` requests to join and is
approved by `L`.  Mirrors spec scenarios A and B. -/
def twoMemberOps : List Op :=
  [Op.connect "L",
   Op.joinRoom "L" "R1" "leo" none 0,
   Op.connect "P",
   Op.joinRoom "P" "R1" "pat" none 1,
   Op.approveParticipant "L" "R1" "P_1"]

/-- The two-member room state reached by `twoMemberOps`. -/
def twoMemberState : SrvState := applyOps initState twoMemberOps

example : (getRoom twoMemberState.rooms "R1").isSome = true := by decide

example :
    (getRoom twoMemberState.rooms "R1").map Room.participants =
      some [("L", "leo"), ("P", "pat")] := by decide

example : (getRoom twoMemberState.rooms "R1").map Room.leaderId = some (some "L") := by decide

example : channels twoMemberState "L" = ["R1"] := by decide

example : getRoom (applyOp twoMemberState (Op.disconnect "L")).1.rooms "R1" = none := by decide

/-! ## Structural invariants of the registry

`RoomWF joined roomId room` packages the room-level well-formedness the server
maintains: the room is inhabited, its leader (when set) is a participant, and
every participant has `socket.join`ed the room's transport channel. -/

/-- Well-formedness of one registry entry. -/
def RoomWF (joined : List (String × List String)) (roomId : String) (room : Room) : Prop :=
  room.participants ≠ [] ∧
  (∀ l, room.leaderId = some l → (olookup room.participants l).isSome = true) ∧
  (∀ s, (olookup room.participants s).isSome = true → roomId ∈ chanList joined s)

/-- Well-formedness of every entry of a registry. -/
def WFrooms (rooms : Registry) (joined : List (String × List String)) : Prop :=
  ∀ rid r, olookup rooms rid = some r → RoomWF joined rid r

/-- Well-formedness of a server state. -/
def WF (st : SrvState) : Prop :=
  WFrooms st.rooms st.joined

theorem RoomWF_congr {joined : List (String × List String)} {roomId : String}
    {room room' : Room} (h : RoomWF joined roomId room)
    (hp : room'.participants = room.participants) (hl : room'.leaderId = room.leaderId) :
    RoomWF joined roomId room' := by
  obtain ⟨h1, h2, h3⟩ := h
  exact ⟨by rw [hp]; exact h1, by rw [hp, hl]; exact h2, by rw [hp]; exact h3⟩

theorem mem_chanList_joinChannel {joined : List (String × List String)}
    {rid s : String} (s2 roomId : String) (h : rid ∈ chanList joined s) :
    rid ∈ chanList (joinChannel joined s2 roomId) s := by
  by_cases hmem : roomId ∈ (olookup joined s2).getD []
  · simpa [joinChannel, hmem] using h
  · simp only [joinChannel, hmem, if_neg, Bool.false_eq_true, not_false_eq_true]
    unfold chanList at h ⊢
    rw [olookup_oinsert]
    by_cases hs : s2 = s
    · subst hs
      rw [if_pos rfl]
      simp only [Option.getD_some, List.mem_append]
      exact Or.inl h
    · simpa [hs] using h

theorem mem_chanList_joinChannel_self (joined : List (String × List String))
    (s roomId : String) : roomId ∈ chanList (joinChannel joined s roomId) s := by
  by_cases hmem : roomId ∈ (olookup joined s).getD []
  · simp [joinChannel, hmem, chanList]
  · simp only [joinChannel, hmem, if_neg, Bool.false_eq_true, not_false_eq_true]
    unfold chanList
    rw [olookup_oinsert]
    simp

theorem mem_chanList_leaveChannel {joined : List (String × List String)}
    {rid s : String} (s2 roomId : String) (h : rid ∈ chanList joined s)
    (hne : rid ≠ roomId) : rid ∈ chanList (leaveChannel joined s2 roomId) s := by
  unfold chanList at h ⊢
  unfold leaveChannel
  cases hcur : olookup joined s2 with
  | none => simpa [hcur] using h
  | some cur =>
    simp only
    rw [olookup_oinsert]
    by_cases hs : s2 = s
    · subst hs
      rw [hcur] at h
      simp only [if_pos rfl, Option.getD_some]
      exact (List.mem_erase_of_ne hne).mpr (by simpa using h)
    · simpa [hs] using h

theorem chanList_leaveChannelAll (joined : List (String × List String))
    (roomId s : String) :
    chanList (leaveChannelAll joined roomId) s = (chanList joined s).erase roomId := by
  unfold leaveChannelAll chanList
  induction joined with
  | nil => simp [olookup]
  | cons p rest ih =>
    obtain ⟨k, v⟩ := p
    by_cases h : k = s <;> simp [olookup, h, ih]

theorem mem_chanList_leaveChannelAll {joined : List (String × List String)}
    {rid s : String} (roomId : String) (h : rid ∈ chanList joined s)
    (hne : rid ≠ roomId) : rid ∈ chanList (leaveChannelAll joined roomId) s := by
  rw [chanList_leaveChannelAll]
  exact (List.mem_erase_of_ne hne).mpr h

theorem chanList_oerase_ne {joined : List (String × List String)}
    {s sender : String} (h : s ≠ sender) :
    chanList (oerase joined sender) s = chanList joined s := by
  unfold chanList
  rw [olookup_oerase]
  simp [Ne.symm h]

theorem olookup_oinsert_isSome {A : Type} (m : List (String × A)) (k k' : String) (v : A) :
    (olookup (oinsert m k v) k').isSome = true ↔
      k' = k ∨ (olookup m k').isSome = true := by
  rw [olookup_oinsert]
  by_cases h : k = k'
  · simp [h.symm]
  · simp [h, Ne.symm h]

theorem olookup_oerase_isSome {A : Type} (m : List (String × A)) (k k' : String) :
    (olookup (oerase m k) k').isSome = true ↔
      k' ≠ k ∧ (olookup m k').isSome = true := by
  rw [olookup_oerase]
  by_cases h : k = k'
  · simp [h]
  · simp [h, Ne.symm h]

/-! ### Characterizations of the registry mutators -/

theorem createRoom_fst_lookup (rooms : Registry) (roomId : String) :
    olookup (createRoom rooms roomId).1 roomId = some (createRoom rooms roomId).2 := by
  unfold createRoom
  cases h : olookup rooms roomId <;> simp [h, olookup_oinsert]

theorem createRoom_fst_lookup_ne (rooms : Registry) (roomId rid : String)
    (hne : roomId ≠ rid) :
    olookup (createRoom rooms roomId).1 rid = olookup rooms rid := by
  unfold createRoom
  cases h : olookup rooms roomId <;> simp [h, olookup_oinsert, hne]

theorem createRoom_snd (rooms : Registry) (roomId : String) :
    (createRoom rooms roomId).2 = (olookup rooms roomId).getD emptyRoom := by
  unfold createRoom
  cases h : olookup rooms roomId <;> simp [h]

theorem addParticipant_fst (rooms : Registry) (roomId sockId name : String) :
    (addParticipant rooms roomId sockId name).1 =
      oinsert (createRoom rooms roomId).1 roomId (addParticipant rooms roomId sockId name).2 :=
  rfl

theorem addParticipant_snd (rooms : Registry) (roomId sockId name : String) :
    (addParticipant rooms roomId sockId name).2 =
      { (createRoom rooms roomId).2 with
          participants := oinsert (createRoom rooms roomId).2.participants sockId name,
          leaderId :=
            if jsTruthy (createRoom rooms roomId).2.leaderId
            then (createRoom rooms roomId).2.leaderId
            else some sockId } := by
  unfold addParticipant
  by_cases h : jsTruthy (createRoom rooms roomId).2.leaderId <;> simp [h]

theorem removeParticipant_fst_lookup_ne (rooms : Registry) (roomId sockId rid : String)
    (hne : roomId ≠ rid) :
    olookup (removeParticipant rooms roomId sockId).1 rid = olookup rooms rid := by
  unfold removeParticipant
  cases h : olookup rooms roomId with
  | none => rfl
  | some room =>
    simp only
    split
    · unfold deleteRoom
      rw [olookup_oerase, if_neg hne]
    · split
      · unfold deleteRoom
        rw [olookup_oerase, if_neg hne]
      · rw [olookup_oinsert, if_neg hne]

theorem removeParticipant_fst_lookup_self (rooms : Registry) (roomId sockId : String) :
    olookup (removeParticipant rooms roomId sockId).1 roomId = none ∨
      (∃ room1, olookup (removeParticipant rooms roomId sockId).1 roomId = some room1 ∧
        olookup room1.participants sockId = none ∧
        (removeParticipant rooms roomId sockId).2 = some room1) := by
  unfold removeParticipant
  cases h : olookup rooms roomId with
  | none => exact Or.inl (by simp [h])
  | some room =>
    simp only
    split
    · exact Or.inl (by unfold deleteRoom; rw [olookup_oerase, if_pos rfl])
    · split
      · exact Or.inl (by unfold deleteRoom; rw [olookup_oerase, if_pos rfl])
      · refine Or.inr ⟨_, ?_, ?_, rfl⟩
        · rw [olookup_oinsert, if_pos rfl]
        · simp only
          rw [olookup_oerase, if_pos rfl]

/-! ### `RoomWF` monotonicity under channel changes -/

theorem RoomWF_joinChannel_mono {joined : List (String × List String)}
    {rid : String} {r : Room} (s2 rm : String) (h : RoomWF joined rid r) :
    RoomWF (joinChannel joined s2 rm) rid r := by
  obtain ⟨h1, h2, h3⟩ := h
  exact ⟨h1, h2, fun s hs => mem_chanList_joinChannel s2 rm (h3 s hs)⟩

theorem RoomWF_leaveChannel_mono {joined : List (String × List String)}
    {rid : String} {r : Room} (s2 rm : String) (h : RoomWF joined rid r)
    (hne : rid ≠ rm) : RoomWF (leaveChannel joined s2 rm) rid r := by
  obtain ⟨h1, h2, h3⟩ := h
  exact ⟨h1, h2, fun s hs => mem_chanList_leaveChannel s2 rm (h3 s hs) hne⟩

theorem RoomWF_leaveChannelAll_mono {joined : List (String × List String)}
    {rid : String} {r : Room} (rm : String) (h : RoomWF joined rid r)
    (hne : rid ≠ rm) : RoomWF (leaveChannelAll joined rm) rid r := by
  obtain ⟨h1, h2, h3⟩ := h
  exact ⟨h1, h2, fun s hs => mem_chanList_leaveChannelAll rm (h3 s hs) hne⟩

/-! ### `WFrooms` preservation by the registry mutators -/

theorem WFrooms_addParticipant (rooms : Registry) (roomId sockId name : String)
    (joined : List (String × List String)) (h : WFrooms rooms joined) :
    WFrooms (addParticipant rooms roomId sockId name).1
      (joinChannel joined sockId roomId) := by
  intro rid r hr
  rw [addParticipant_fst, olookup_oinsert] at hr
  by_cases hrid : roomId = rid
  · subst hrid
    rw [if_pos rfl] at hr
    injection hr with hr
    subst hr
    rw [addParticipant_snd]
    refine ⟨oinsert_ne_nil _ _ _, ?_, ?_⟩
    · intro l hl
      simp only at hl ⊢
      by_cases ht : jsTruthy (createRoom rooms roomId).2.leaderId
      · rw [if_pos ht] at hl
        rw [createRoom_snd] at ht hl
        cases hroom : olookup rooms roomId with
        | none => rw [hroom] at ht; simp [emptyRoom, jsTruthy] at ht
        | some room =>
          rw [hroom] at hl
          have hkey := (h roomId room hroom).2.1 l (by simpa using hl)
          rw [olookup_oinsert_isSome]
          right
          rw [createRoom_snd, hroom]
          simpa using hkey
      · rw [if_neg ht] at hl
        injection hl with hl
        subst hl
        rw [olookup_oinsert_isSome]
        exact Or.inl rfl
    · intro s hs
      simp only at hs
      rw [olookup_oinsert_isSome] at hs
      cases hs with
      | inl hseq =>
        subst hseq
        exact mem_chanList_joinChannel_self joined s roomId
      | inr hkey =>
        rw [createRoom_snd] at hkey
        cases hroom : olookup rooms roomId with
        | none => rw [hroom] at hkey; simp [emptyRoom, olookup] at hkey
        | some room =>
          rw [hroom] at hkey
          have := (h roomId room hroom).2.2 s (by simpa using hkey)
          exact mem_chanList_joinChannel sockId roomId this
  · rw [if_neg hrid] at hr
    rw [createRoom_fst_lookup_ne rooms roomId rid hrid] at hr
    exact RoomWF_joinChannel_mono sockId roomId (h rid r hr)

theorem WFrooms_removeParticipant (rooms : Registry) (roomId sockId : String)
    (joined : List (String × List String)) (h : WFrooms rooms joined) :
    WFrooms (removeParticipant rooms roomId sockId).1 joined := by
  intro rid r hr
  by_cases hrid : roomId = rid
  · subst hrid
    rcases removeParticipant_fst_lookup_self rooms roomId sockId with hnone | ⟨room1, hsome, _, _⟩
    · rw [hnone] at hr; cases hr
    · rw [hsome] at hr
      injection hr with hr
      subst hr
      -- the surviving-room branch of removeParticipant
      unfold removeParticipant at hsome
      cases hroom : olookup rooms roomId with
      | none =>
        rw [hroom] at hsome
        simp only at hsome
        rw [hroom] at hsome
        cases hsome
      | some room =>
        rw [hroom] at hsome
        simp only at hsome
        by_cases hlead : room.leaderId = some sockId
        · rw [if_pos hlead] at hsome
          unfold deleteRoom at hsome
          rw [olookup_oerase, if_pos rfl] at hsome
          cases hsome
        · rw [if_neg hlead] at hsome
          split at hsome
          · unfold deleteRoom at hsome
            rw [olookup_oerase, if_pos rfl] at hsome
            cases hsome
          · rw [olookup_oinsert, if_pos rfl] at hsome
            injection hsome with hsome
            obtain ⟨h1, h2, h3⟩ := h roomId room hroom
            subst hsome
            refine ⟨by assumption, ?_, ?_⟩
            · intro l hl
              simp only at hl ⊢
              have hkey := h2 l hl
              rw [olookup_oerase_isSome]
              refine ⟨?_, hkey⟩
              intro heq
              exact hlead (by rw [← heq]; exact hl)
            · intro s hs
              simp only at hs
              rw [olookup_oerase_isSome] at hs
              exact h3 s hs.2
  · rw [removeParticipant_fst_lookup_ne rooms roomId sockId rid hrid] at hr
    exact h rid r hr

theorem WFrooms_promoteLeader (rooms : Registry) (roomId target : String)
    (joined : List (String × List String)) (h : WFrooms rooms joined) :
    WFrooms (promoteLeader rooms roomId target).1 joined := by
  intro rid r hr
  unfold promoteLeader at hr
  cases hroom : olookup rooms roomId with
  | none => rw [hroom] at hr; exact h rid r hr
  | some room =>
    rw [hroom] at hr
    simp only at hr
    split at hr
    · rw [olookup_oinsert] at hr
      by_cases hrid : roomId = rid
      · subst hrid
        rw [if_pos rfl] at hr
        injection hr with hr
        obtain ⟨h1, h2, h3⟩ := h roomId room hroom
        subst hr
        refine ⟨h1, ?_, h3⟩
        intro l hl
        simp only at hl
        injection hl with hl
        subst hl
        assumption
      · rw [if_neg hrid] at hr
        exact h rid r hr
    · exact h rid r hr

/-! ### Further characterizations used by the invariant proofs -/

theorem addParticipant_fst_lookup_self (rooms : Registry) (roomId sockId name : String) :
    olookup (addParticipant rooms roomId sockId name).1 roomId =
      some (addParticipant rooms roomId sockId name).2 := by
  rw [addParticipant_fst, olookup_oinsert, if_pos rfl]

theorem chanList_leaveChannel_ne {joined : List (String × List String)}
    {s : String} (s2 rm : String) (h : s ≠ s2) :
    chanList (leaveChannel joined s2 rm) s = chanList joined s := by
  unfold leaveChannel
  cases hcur : olookup joined s2 with
  | none => rfl
  | some cur =>
    unfold chanList
    rw [olookup_oinsert, if_neg (Ne.symm h)]

theorem removeParticipant_preserves_none (rooms : Registry) (roomId sockId x : String)
    (h : olookup rooms x = none) :
    olookup (removeParticipant rooms roomId sockId).1 x = none := by
  by_cases hx : roomId = x
  · subst hx
    unfold removeParticipant
    rw [h]
    exact h
  · rw [removeParticipant_fst_lookup_ne rooms roomId sockId x hx]
    exact h

theorem removeParticipant_leader_self_none (rooms : Registry) (roomId sockId : String)
    (room : Room) (hroom : olookup rooms roomId = some room)
    (hlead : room.leaderId = some sockId) :
    olookup (removeParticipant rooms roomId sockId).1 roomId = none := by
  unfold removeParticipant
  rw [hroom]
  simp only
  rw [if_pos hlead]
  unfold deleteRoom
  rw [olookup_oerase, if_pos rfl]

/-- `WFrooms` is preserved by re-inserting a room whose membership and
leadership are unchanged (only media / token / request fields differ). -/
theorem WFrooms_oinsert_same_shape {rooms : Registry}
    {joined : List (String × List String)} {roomId : String} {room room' : Room}
    (h : WFrooms rooms joined) (hroom : olookup rooms roomId = some room)
    (hp : room'.participants = room.participants) (hl : room'.leaderId = room.leaderId) :
    WFrooms (oinsert rooms roomId room') joined := by
  intro rid r hr
  rw [olookup_oinsert] at hr
  by_cases hrid : roomId = rid
  · subst hrid
    rw [if_pos rfl] at hr
    injection hr with hr
    subst hr
    exact RoomWF_congr (h roomId room hroom) hp hl
  · rw [if_neg hrid] at hr
    exact h rid r hr

/-! ### `WF` preservation by each socket handler -/

theorem WF_onJoinRoomDirect (st : SrvState) (sender roomId name : String) (h : WF st) :
    WF (onJoinRoomDirect st sender roomId name).1 := by
  exact WFrooms_addParticipant st.rooms roomId sender name st.joined h

theorem WF_onJoinRoomViaToken (st : SrvState) (sender roomId name : String) (h : WF st) :
    WF (onJoinRoomViaToken st sender roomId name).1 := by
  exact WFrooms_addParticipant st.rooms roomId sender name st.joined h

theorem WF_onJoinRoomExpiredToken (st : SrvState) (sender roomId tok : String)
    (existingRoom : Room) (hroom : olookup st.rooms roomId = some existingRoom)
    (h : WF st) : WF (onJoinRoomExpiredToken st sender roomId tok existingRoom).1 := by
  exact WFrooms_oinsert_same_shape h hroom rfl rfl

theorem WF_onJoinRoomPending (st : SrvState) (sender roomId name lid : String) (now : Int)
    (existingRoom : Room) (hroom : olookup st.rooms roomId = some existingRoom)
    (h : WF st) : WF (onJoinRoomPending st sender roomId name lid now existingRoom).1 := by
  exact WFrooms_oinsert_same_shape h hroom rfl rfl

theorem WF_onJoinRoom (st : SrvState) (sender roomId name : String)
    (shareToken : Option String) (now : Int) (h : WF st) :
    WF (onJoinRoom st sender roomId name shareToken now).1 := by
  unfold onJoinRoom
  cases hroom : getRoom st.rooms roomId with
  | none => exact WF_onJoinRoomDirect st sender roomId name h
  | some existingRoom =>
    dsimp only
    cases hlead : existingRoom.leaderId with
    | none => exact WF_onJoinRoomDirect st sender roomId name h
    | some lid =>
      dsimp only
      by_cases hl : lid = ""
      · rw [if_pos hl]
        exact WF_onJoinRoomDirect st sender roomId name h
      · rw [if_neg hl]
        cases shareToken with
        | none => exact WF_onJoinRoomPending st sender roomId name lid now existingRoom hroom h
        | some tok =>
          dsimp only
          by_cases ht : tok = ""
          · rw [if_pos ht]
            exact WF_onJoinRoomPending st sender roomId name lid now existingRoom hroom h
          · rw [if_neg ht]
            cases htok : olookup existingRoom.shareTokens tok with
            | none => exact WF_onJoinRoomPending st sender roomId name lid now existingRoom hroom h
            | some tokenData =>
              dsimp only
              by_cases hexp : now < tokenData.expiresAt
              · rw [if_pos hexp]
                exact WF_onJoinRoomViaToken st sender roomId name h
              · rw [if_neg hexp]
                exact WF_onJoinRoomExpiredToken st sender roomId tok existingRoom hroom h

theorem WF_onLeaderState (st : SrvState) (sender roomId : String) (mediaTime : ℚ)
    (isPlaying : Bool) (mediaKind mediaRef : Option String) (now : Int) (h : WF st) :
    WF (onLeaderState st sender roomId mediaTime isPlaying mediaKind mediaRef now).1 := by
  unfold onLeaderState
  cases hroom : getRoom st.rooms roomId with
  | none => exact h
  | some room =>
    dsimp only
    by_cases hlead : room.leaderId ≠ some sender
    · rw [if_pos hlead]; exact h
    · rw [if_neg hlead]
      refine WFrooms_oinsert_same_shape h hroom ?_ ?_ <;>
        by_cases h1 : jsTruthy mediaKind <;> by_cases h2 : jsTruthy mediaRef <;> simp [h1, h2]

theorem WF_onControl (st : SrvState) (sender roomId ctrlType : String)
    (toTime : Option ℚ) (now : Int) (h : WF st) :
    WF (onControl st sender roomId ctrlType toTime now).1 := by
  unfold onControl
  cases hroom : getRoom st.rooms roomId with
  | none => exact h
  | some room =>
    dsimp only
    by_cases hlead : room.leaderId ≠ some sender
    · rw [if_pos hlead]; exact h
    · rw [if_neg hlead]
      refine WFrooms_oinsert_same_shape h hroom ?_ ?_ <;>
      · split
        · rfl
        · split
          · rfl
          · split
            · cases toTime <;> rfl
            · rfl

theorem WF_onMediaCleared (st : SrvState) (sender roomId : String) (now : Int)
    (h : WF st) : WF (onMediaCleared st sender roomId now).1 := by
  unfold onMediaCleared
  cases hroom : getRoom st.rooms roomId with
  | none => exact h
  | some room =>
    dsimp only
    by_cases hlead : room.leaderId ≠ some sender
    · rw [if_pos hlead]; exact h
    · rw [if_neg hlead]
      exact WFrooms_oinsert_same_shape h hroom rfl rfl

theorem WF_onPromoteLeader (st : SrvState) (sender roomId participantId : String)
    (h : WF st) : WF (onPromoteLeader st sender roomId participantId).1 := by
  unfold onPromoteLeader
  cases hroom : getRoom st.rooms roomId with
  | none => exact h
  | some room =>
    dsimp only
    by_cases hlead : room.leaderId ≠ some sender
    · rw [if_pos hlead]; exact h
    · rw [if_neg hlead]
      have hwf := WFrooms_promoteLeader st.rooms roomId participantId st.joined h
      cases hp : (promoteLeader st.rooms roomId participantId).2 <;> simpa [hp] using hwf

theorem WF_onKickParticipant (st : SrvState) (sender roomId participantId : String)
    (h : WF st) : WF (onKickParticipant st sender roomId participantId).1 := by
  unfold onKickParticipant
  cases hroom : getRoom st.rooms roomId with
  | none => exact h
  | some room =>
    dsimp only
    by_cases hlead : room.leaderId ≠ some sender
    · rw [if_pos hlead]; exact h
    · rw [if_neg hlead]
      by_cases hself : participantId = sender
      · rw [if_pos hself]; exact h
      · rw [if_neg hself]
        simp only
        have hwf := WFrooms_removeParticipant st.rooms roomId participantId st.joined h
        by_cases hconn : participantId ∈ st.connected
        · rw [if_pos hconn]
          intro rid r hr
          have hR := hwf rid r hr
          by_cases hrid : rid = roomId
          · subst hrid
            rcases removeParticipant_fst_lookup_self st.rooms rid participantId with
              hnone | ⟨room1, hsome, hgone, _⟩
            · rw [hnone] at hr; cases hr
            · rw [hsome] at hr
              injection hr with hr
              subst hr
              obtain ⟨h1, h2, h3⟩ := hR
              refine ⟨h1, h2, ?_⟩
              intro s hs
              have hsne : s ≠ participantId := by
                intro hcontra
                subst hcontra
                rw [hgone] at hs
                cases hs
              rw [chanList_leaveChannel_ne participantId rid hsne]
              exact h3 s hs
          · exact RoomWF_leaveChannel_mono participantId roomId hR hrid
        · rw [if_neg hconn]
          exact hwf

theorem WF_onCreateShareToken (st : SrvState) (sender roomId shareToken : String)
    (now : Int) (h : WF st) : WF (onCreateShareToken st sender roomId shareToken now).1 := by
  unfold onCreateShareToken
  cases hroom : getRoom st.rooms roomId with
  | none => exact h
  | some room =>
    dsimp only
    by_cases hlead : room.leaderId ≠ some sender
    · rw [if_pos hlead]; exact h
    · rw [if_neg hlead]
      exact WFrooms_oinsert_same_shape h hroom rfl rfl

theorem WF_onApproveParticipant (st : SrvState) (sender roomId requestId : String)
    (h : WF st) : WF (onApproveParticipant st sender roomId requestId).1 := by
  unfold onApproveParticipant
  cases hroom : getRoom st.rooms roomId with
  | none => exact h
  | some room =>
    dsimp only
    by_cases hlead : room.leaderId ≠ some sender
    · rw [if_pos hlead]; exact h
    · rw [if_neg hlead]
      cases hreq : olookup room.pendingRequests requestId with
      | none => exact h
      | some request =>
        simp only
        split
        · have hwf := WFrooms_addParticipant st.rooms roomId request.socketId request.name
            st.joined h
          exact WFrooms_oinsert_same_shape hwf
            (addParticipant_fst_lookup_self st.rooms roomId request.socketId request.name)
            rfl rfl
        · exact WFrooms_oinsert_same_shape h hroom rfl rfl

theorem WF_onRejectParticipant (st : SrvState) (sender roomId requestId : String)
    (h : WF st) : WF (onRejectParticipant st sender roomId requestId).1 := by
  unfold onRejectParticipant
  cases hroom : getRoom st.rooms roomId with
  | none => exact h
  | some room =>
    dsimp only
    by_cases hlead : room.leaderId ≠ some sender
    · rw [if_pos hlead]; exact h
    · rw [if_neg hlead]
      cases hreq : olookup room.pendingRequests requestId with
      | none => exact h
      | some request => exact WFrooms_oinsert_same_shape h hroom rfl rfl

theorem WF_onLeaderLeaveRoom (st : SrvState) (sender roomId : String) (h : WF st) :
    WF (onLeaderLeaveRoom st sender roomId).1 := by
  unfold onLeaderLeaveRoom
  cases hroom : getRoom st.rooms roomId with
  | none => exact h
  | some room =>
    dsimp only
    by_cases hlead : room.leaderId ≠ some sender
    · rw [if_pos hlead]; exact h
    · rw [if_neg hlead]
      intro rid r hr
      unfold deleteRoom at hr
      simp only at hr
      rw [olookup_oerase] at hr
      by_cases hrid : roomId = rid
      · rw [if_pos hrid] at hr; cases hr
      · rw [if_neg hrid] at hr
        exact RoomWF_leaveChannelAll_mono roomId (h rid r hr) (Ne.symm hrid)

theorem WF_onSnapshotRequest (st : SrvState) (sender roomId : String) (h : WF st) :
    WF (onSnapshotRequest st sender roomId).1 := by
  unfold onSnapshotRequest
  cases hroom : getRoom st.rooms roomId with
  | none => exact h
  | some room => dsimp only; exact h

theorem WF_onConnect (st : SrvState) (socketId : String) (h : WF st) :
    WF (onConnect st socketId).1 := by
  exact h

/-! ### The `disconnect` fold -/

theorem disconnectRoomStep_fst (sender : String) (acc : SrvState × List Emit) (r : String) :
    (disconnectRoomStep sender acc r).1 =
      { acc.1 with rooms := (removeParticipant acc.1.rooms r sender).1 } := by
  unfold disconnectRoomStep
  cases hrp : (removeParticipant acc.1.rooms r sender).2 with
  | none => simp only [hrp]; split <;> rfl
  | some updatedRoom => simp only [hrp]

theorem foldl_disc_WFrooms (sender : String) (rids : List String)
    (J : List (String × List String)) :
    ∀ acc : SrvState × List Emit, WFrooms acc.1.rooms J →
      WFrooms ((rids.foldl (disconnectRoomStep sender) acc).1).rooms J := by
  induction rids with
  | nil => intro acc h; exact h
  | cons r rest ih =>
    intro acc h
    simp only [List.foldl_cons]
    refine ih (disconnectRoomStep sender acc r) ?_
    rw [disconnectRoomStep_fst]
    exact WFrooms_removeParticipant acc.1.rooms r sender J h

theorem foldl_disc_joined (sender : String) (rids : List String) :
    ∀ acc : SrvState × List Emit,
      ((rids.foldl (disconnectRoomStep sender) acc).1).joined = acc.1.joined := by
  induction rids with
  | nil => intro acc; rfl
  | cons r rest ih =>
    intro acc
    simp only [List.foldl_cons]
    rw [ih (disconnectRoomStep sender acc r), disconnectRoomStep_fst]

theorem foldl_disc_lookup_none (sender : String) (rids : List String) :
    ∀ (acc : SrvState × List Emit) (x : String), olookup acc.1.rooms x = none →
      olookup ((rids.foldl (disconnectRoomStep sender) acc).1).rooms x = none := by
  induction rids with
  | nil => intro acc x h; exact h
  | cons r rest ih =>
    intro acc x h
    simp only [List.foldl_cons]
    refine ih (disconnectRoomStep sender acc r) x ?_
    rw [disconnectRoomStep_fst]
    exact removeParticipant_preserves_none acc.1.rooms r sender x h

theorem foldl_disc_deletes_led (sender : String) (rids : List String) :
    ∀ (acc : SrvState × List Emit) (roomId : String), roomId ∈ rids →
      (∀ room, olookup acc.1.rooms roomId = some room → room.leaderId = some sender) →
      olookup ((rids.foldl (disconnectRoomStep sender) acc).1).rooms roomId = none := by
  induction rids with
  | nil => intro acc roomId hmem _; cases hmem
  | cons r rest ih =>
    intro acc roomId hmem hlead
    simp only [List.foldl_cons]
    by_cases hr : r = roomId
    · subst hr
      cases hroom : olookup acc.1.rooms r with
      | none =>
        refine foldl_disc_lookup_none sender rest (disconnectRoomStep sender acc r) r ?_
        rw [disconnectRoomStep_fst]
        exact removeParticipant_preserves_none acc.1.rooms r sender r hroom
      | some room =>
        refine foldl_disc_lookup_none sender rest (disconnectRoomStep sender acc r) r ?_
        rw [disconnectRoomStep_fst]
        exact removeParticipant_leader_self_none acc.1.rooms r sender room hroom
          (hlead room hroom)
    · have hmem' : roomId ∈ rest := by
        cases hmem with
        | head => exact absurd rfl hr
        | tail _ htl => exact htl
      refine ih (disconnectRoomStep sender acc r) roomId hmem' ?_
      intro room hroom
      rw [disconnectRoomStep_fst] at hroom
      simp only at hroom
      rw [removeParticipant_fst_lookup_ne acc.1.rooms r sender roomId hr] at hroom
      exact hlead room hroom

theorem foldl_disc_purge (sender : String) (rids : List String) :
    ∀ acc : SrvState × List Emit,
      (∀ x room, olookup acc.1.rooms x = some room →
        (olookup room.participants sender).isSome = true → x ∈ rids) →
      ∀ x room, olookup ((rids.foldl (disconnectRoomStep sender) acc).1).rooms x = some room →
        olookup room.participants sender = none := by
  induction rids with
  | nil =>
    intro acc hyp x room hx
    cases hcase : olookup room.participants sender with
    | none => rfl
    | some v =>
      exact absurd (hyp x room hx (by rw [hcase]; rfl)) (List.not_mem_nil x)
  | cons r rest ih =>
    intro acc hyp x room hx
    simp only [List.foldl_cons] at hx
    refine ih (disconnectRoomStep sender acc r) ?_ x room hx
    intro y room' hy hkey
    rw [disconnectRoomStep_fst] at hy
    simp only at hy
    by_cases hyr : r = y
    · subst hyr
      rcases removeParticipant_fst_lookup_self acc.1.rooms r sender with
        hnone | ⟨room1, hsome, hgone, _⟩
      · rw [hnone] at hy; cases hy
      · rw [hsome] at hy
        injection hy with hy
        subst hy
        rw [hgone] at hkey
        cases hkey
    · rw [removeParticipant_fst_lookup_ne acc.1.rooms r sender y hyr] at hy
      have hmem := hyp y room' hy hkey
      cases hmem with
      | head => exact absurd rfl hyr
      | tail _ htl => exact htl

theorem WF_onDisconnect (st : SrvState) (sender : String) (h : WF st) :
    WF (onDisconnect st sender).1 := by
  unfold onDisconnect
  intro rid r hr
  simp only at hr
  have hA : RoomWF st.joined rid r :=
    foldl_disc_WFrooms sender (channels st sender) st.joined (st, []) h rid r hr
  have hB : olookup r.participants sender = none := by
    refine foldl_disc_purge sender (channels st sender) (st, []) ?_ rid r hr
    intro x room hx hkey
    exact (h x room hx).2.2 sender hkey
  obtain ⟨h1, h2, h3⟩ := hA
  refine ⟨h1, h2, ?_⟩
  intro s hs
  have hsne : s ≠ sender := by
    intro hcontra
    subst hcontra
    rw [hB] at hs
    cases hs
  simp only
  rw [chanList_oerase_ne hsne, foldl_disc_joined sender (channels st sender) (st, [])]
  exact h3 s hs

/-! ### The master invariant over reachable states -/

theorem WF_applyOp (st : SrvState) (op : Op) (h : WF st) : WF (applyOp st op).1 := by
  cases op with
  | connect socketId => exact WF_onConnect st socketId h
  | joinRoom sender roomId name shareToken now =>
    exact WF_onJoinRoom st sender roomId name shareToken now h
  | leaderState sender roomId mediaTime isPlaying mediaKind mediaRef now =>
    exact WF_onLeaderState st sender roomId mediaTime isPlaying mediaKind mediaRef now h
  | control sender roomId ctrlType toTime now =>
    exact WF_onControl st sender roomId ctrlType toTime now h
  | mediaCleared sender roomId now => exact WF_onMediaCleared st sender roomId now h
  | promoteLeader sender roomId participantId =>
    exact WF_onPromoteLeader st sender roomId participantId h
  | kickParticipant sender roomId participantId =>
    exact WF_onKickParticipant st sender roomId participantId h
  | createShareToken sender roomId shareToken now =>
    exact WF_onCreateShareToken st sender roomId shareToken now h
  | approveParticipant sender roomId requestId =>
    exact WF_onApproveParticipant st sender roomId requestId h
  | rejectParticipant sender roomId requestId =>
    exact WF_onRejectParticipant st sender roomId requestId h
  | leaderLeaveRoom sender roomId => exact WF_onLeaderLeaveRoom st sender roomId h
  | snapshotRequest sender roomId => exact WF_onSnapshotRequest st sender roomId h
  | disconnect sender => exact WF_onDisconnect st sender h

theorem WF_initState : WF initState := by
  intro rid r hr
  cases hr

/-- Every reachable server state is well-formed: every registered room is
inhabited, its leader (when set) is a participant, and every participant has
joined the room's transport channel. -/
theorem reachable_wf {st : SrvState} (h : Reachable st) : WF st := by
  induction h with
  | init => exact WF_initState
  | step st op _ ih => exact WF_applyOp st op ih

/-- `twoMemberState` is a reachable server state. -/
theorem reachable_twoMemberState : Reachable twoMemberState :=
  Reachable.step _ (Op.approveParticipant "L" "R1" "P_1")
    (Reachable.step _ (Op.joinRoom "P" "R1" "pat" none 1)
      (Reachable.step _ (Op.connect "P")
        (Reachable.step _ (Op.joinRoom "L" "R1" "leo" none 0)
          (Reachable.step _ (Op.connect "L") Reachable.init))))

/-- The room stored under `"R1"` in `twoMemberState`. -/
def twoMemberRoom : Room :=
  { leaderId := some "L"
    mediaKind := none
    mediaRef := none
    isPlaying := false
    leaderMediaTime := 0
    leaderServerTs := 0
    participants := [("L", "leo"), ("P", "pat")]
    pendingRequests := []
    shareTokens := [] }

example : getRoom twoMemberState.rooms "R1" = some twoMemberRoom := by decide

/-! ## The claims -/

/-- C3: after any server operation completes, no room with an empty
participants map is present in the registry — every room found in a reachable
state's registry has at least one participant. -/
theorem C3_no_empty_room_observable (st : SrvState) (roomId : String) (room : Room)
    (h : Reachable st) (hroom : getRoom st.rooms roomId = some room) :
    room.participants ≠ [] :=
  (reachable_wf h roomId room hroom).1

theorem C3_no_empty_room_observable_witness :
    getRoom twoMemberState.rooms "R1" = some twoMemberRoom ∧
      twoMemberRoom.participants ≠ [] :=
  ⟨by decide,
   C3_no_empty_room_observable twoMemberState "R1" twoMemberRoom
     reachable_twoMemberState (by decide)⟩

/-- C4: in every reachable server state, every room's `leaderId` is either
null or a key of that room's participants map. -/
theorem C4_leader_in_participants (st : SrvState) (roomId : String) (room : Room)
    (h : Reachable st) (hroom : getRoom st.rooms roomId = some room) :
    room.leaderId = none ∨
      ∃ l, room.leaderId = some l ∧ (olookup room.participants l).isSome = true := by
  cases hl : room.leaderId with
  | none => exact Or.inl rfl
  | some l => exact Or.inr ⟨l, rfl, (reachable_wf h roomId room hroom).2.1 l hl⟩

theorem C4_leader_in_participants_witness :
    getRoom twoMemberState.rooms "R1" = some twoMemberRoom ∧
      (twoMemberRoom.leaderId = none ∨
        ∃ l, twoMemberRoom.leaderId = some l ∧
          (olookup twoMemberRoom.participants l).isSome = true) :=
  ⟨by decide,
   C4_leader_in_participants twoMemberState "R1" twoMemberRoom
     reachable_twoMemberState (by decide)⟩

/-- C1 (counterexample): in the reachable two-member state, the leader `L`
and a second participant `P` share room `R1`; when `L` disconnects
involuntarily the room is *destroyed* (removed from the registry), not left
leaderless with `P` inside, contradicting the claim. -/
theorem C1_counterexample :
    getRoom twoMemberState.rooms "R1" = some twoMemberRoom ∧
    twoMemberRoom.leaderId = some "L" ∧
    (olookup twoMemberRoom.participants "P").isSome = true ∧
    getRoom (applyOp twoMemberState (Op.disconnect "L")).1.rooms "R1" = none := by
  decide

/-- C1 (amended): when the leader of a room disconnects involuntarily, the
room is destroyed — removed from the registry — regardless of how many other
participants remain; leadership is never reassigned by this path. -/
theorem C1_amended_leader_disconnect_destroys_room (st : SrvState)
    (roomId sender : String) (room : Room) (h : Reachable st)
    (hroom : getRoom st.rooms roomId = some room)
    (hlead : room.leaderId = some sender) :
    getRoom (applyOp st (Op.disconnect sender)).1.rooms roomId = none := by
  have hwf := reachable_wf h
  have hkey := (hwf roomId room hroom).2.1 sender hlead
  have hchan : roomId ∈ channels st sender := (hwf roomId room hroom).2.2 sender hkey
  show getRoom (onDisconnect st sender).1.rooms roomId = none
  unfold onDisconnect
  simp only
  refine foldl_disc_deletes_led sender (channels st sender) (st, []) roomId hchan ?_
  intro room' hroom'
  have heq : room = room' := Option.some.inj (hroom.symm.trans hroom')
  rw [← heq]
  exact hlead

theorem C1_amended_witness :
    getRoom twoMemberState.rooms "R1" = some twoMemberRoom ∧
    twoMemberRoom.leaderId = some "L" ∧
    getRoom (applyOp twoMemberState (Op.disconnect "L")).1.rooms "R1" = none :=
  ⟨by decide, by decide,
   C1_amended_leader_disconnect_destroys_room twoMemberState "R1" "L" twoMemberRoom
     reachable_twoMemberState (by decide) (by decide)⟩

/-- The seek decision of `applyCorrectionIfNeeded`, projected out. -/
theorem applyCorrectionIfNeeded_snd (driftHistory : List ℚ)
    (expectedTime actualTime : ℚ) :
    (applyCorrectionIfNeeded driftHistory expectedTime actualTime).2 =
      if shouldCorrectDrift (calculateDrift expectedTime actualTime) then
        some (actualTime - calculateCorrectionAmount (calculateDrift expectedTime actualTime))
      else none := by
  unfold applyCorrectionIfNeeded
  by_cases hb : shouldCorrectDrift (calculateDrift expectedTime actualTime) = true <;>
    simp [hb]

/-- In the concrete drift example, `|53/5 - 10| = 3/5`. -/
theorem abs_drift_example : |(53 : ℚ)/5 - 10| = 3/5 := by
  rw [show (53 : ℚ)/5 - 10 = 3/5 by norm_num]
  exact abs_of_pos (by norm_num)

/-- C2 (counterexample): for a drift of `0.6 s` (`expected = 10`,
`actual = 10.6`), the sync engine corrects, but it seeks to `10.3` — the
midpoint, i.e. `actual - drift * 0.5` — not directly to the corrected
(expected) time `10`, contradicting the claim's `|drift| ≥ 500 ms` clause. -/
theorem C2_counterexample :
    shouldCorrectDrift (calculateDrift 10 (53/5)) = true ∧
    (applyCorrectionIfNeeded [] 10 (53/5)).2 = some (103/10) ∧
    (103 : ℚ)/10 ≠ 10 := by
  have hd : calculateDrift 10 (53/5) = (53 : ℚ)/5 - 10 := rfl
  have h1 : |(53 : ℚ)/5 - 10| > 150/1000 := by rw [abs_drift_example]; norm_num
  have h2 : ¬ |(53 : ℚ)/5 - 10| < 1/2 := by rw [abs_drift_example]; norm_num
  have hcorr : shouldCorrectDrift (calculateDrift 10 (53/5)) = true := by
    unfold shouldCorrectDrift MAX_DRIFT_MS
    rw [hd, decide_eq_true_eq]
    exact h1
  refine ⟨hcorr, ?_, by norm_num⟩
  rw [applyCorrectionIfNeeded_snd, if_pos hcorr]
  unfold calculateCorrectionAmount
  rw [hd, if_neg h2]
  norm_num

/-- C2 (amended): in the sync engine a correction is applied iff
`|drift| > 150 ms`; when `|drift| < 500 ms` the seek target is
`actual - drift * 0.1` (a ~10% gentle nudge); when `|drift| ≥ 500 ms` the
seek target is `actual - drift * 0.5` — it halves the drift, seeking to the
midpoint between actual and expected, not directly to the expected time. -/
theorem C2_amended_correction_policy (driftHistory : List ℚ)
    (expectedTime actualTime : ℚ) :
    ((applyCorrectionIfNeeded driftHistory expectedTime actualTime).2.isSome = true ↔
        |actualTime - expectedTime| > 150/1000) ∧
    (|actualTime - expectedTime| > 150/1000 → |actualTime - expectedTime| < 1/2 →
      (applyCorrectionIfNeeded driftHistory expectedTime actualTime).2 =
        some (actualTime - (actualTime - expectedTime) * (1/10))) ∧
    (|actualTime - expectedTime| ≥ 1/2 →
      (applyCorrectionIfNeeded driftHistory expectedTime actualTime).2 =
        some (actualTime - (actualTime - expectedTime) * (1/2))) := by
  have hd : calculateDrift expectedTime actualTime = actualTime - expectedTime := rfl
  refine ⟨?_, ?_, ?_⟩
  · rw [applyCorrectionIfNeeded_snd, hd]
    by_cases h1 : |actualTime - expectedTime| > (150 : ℚ)/1000
    · have hb : shouldCorrectDrift (actualTime - expectedTime) = true := by
        unfold shouldCorrectDrift MAX_DRIFT_MS
        rw [decide_eq_true_eq]
        exact h1
      rw [if_pos hb]
      simpa using h1
    · have hb : ¬ shouldCorrectDrift (actualTime - expectedTime) = true := by
        unfold shouldCorrectDrift MAX_DRIFT_MS
        rw [decide_eq_true_eq]
        exact h1
      rw [if_neg hb]
      simpa using h1
  · intro h1 h2
    have hb : shouldCorrectDrift (actualTime - expectedTime) = true := by
      unfold shouldCorrectDrift MAX_DRIFT_MS
      rw [decide_eq_true_eq]
      exact h1
    rw [applyCorrectionIfNeeded_snd, hd, if_pos hb]
    unfold calculateCorrectionAmount
    rw [if_pos h2]
  · intro hge
    have h1 : |actualTime - expectedTime| > (150 : ℚ)/1000 := by linarith
    have h2 : ¬ |actualTime - expectedTime| < 1/2 := by linarith
    have hb : shouldCorrectDrift (actualTime - expectedTime) = true := by
      unfold shouldCorrectDrift MAX_DRIFT_MS
      rw [decide_eq_true_eq]
      exact h1
    rw [applyCorrectionIfNeeded_snd, hd, if_pos hb]
    unfold calculateCorrectionAmount
    rw [if_neg h2]

theorem C2_amended_witness :
    |(53 : ℚ)/5 - 10| ≥ 1/2 ∧
    (applyCorrectionIfNeeded [] 10 (53/5)).2 =
      some ((53 : ℚ)/5 - ((53 : ℚ)/5 - 10) * (1/2)) :=
  ⟨by rw [abs_drift_example]; norm_num,
   (C2_amended_correction_policy [] 10 (53/5)).2.2
     (by rw [abs_drift_example]; norm_num)⟩

/-- C5: the clock-offset estimate from a probe sent at `t0`, answered with
server timestamp `S` at `t1`, equals `S + (t1 - t0)/2 - t1`, and the expected
media position equals `leaderMediaTime + (localNow + Δ - leaderServerTs)/1000`
when playing and exactly `leaderMediaTime` when paused. -/
theorem C5_offset_and_extrapolation
    (t0 t1 S serverOffset localNow leaderMediaTime leaderServerTs : ℚ) :
    calculateServerOffset t0 t1 S = S + (t1 - t0)/2 - t1 ∧
    calculateCurrentMediaTime serverOffset localNow leaderMediaTime leaderServerTs true =
      leaderMediaTime + (localNow + serverOffset - leaderServerTs)/1000 ∧
    calculateCurrentMediaTime serverOffset localNow leaderMediaTime leaderServerTs false =
      leaderMediaTime := by
  refine ⟨?_, ?_, ?_⟩ <;>
    simp [calculateServerOffset, calculateCurrentMediaTime, getServerTime]

/-- C7: a `leader_state` or `control` message whose sender is not the room's
current leader (or whose room does not exist) changes no state and emits
nothing — it is silently dropped. -/
theorem C7_nonleader_messages_dropped (st : SrvState) (sender roomId ctrlType : String)
    (mediaTime : ℚ) (isPlaying : Bool) (mediaKind mediaRef : Option String)
    (toTime : Option ℚ) (now : Int)
    (hauth : ∀ room, getRoom st.rooms roomId = some room → room.leaderId ≠ some sender) :
    applyOp st (Op.leaderState sender roomId mediaTime isPlaying mediaKind mediaRef now) =
      (st, []) ∧
    applyOp st (Op.control sender roomId ctrlType toTime now) = (st, []) := by
  constructor
  · show onLeaderState st sender roomId mediaTime isPlaying mediaKind mediaRef now = (st, [])
    unfold onLeaderState
    cases hroom : getRoom st.rooms roomId with
    | none => rfl
    | some room =>
      dsimp only
      rw [if_pos (hauth room hroom)]
  · show onControl st sender roomId ctrlType toTime now = (st, [])
    unfold onControl
    cases hroom : getRoom st.rooms roomId with
    | none => rfl
    | some room =>
      dsimp only
      rw [if_pos (hauth room hroom)]

theorem C7_witness :
    applyOp twoMemberState (Op.leaderState "P" "R1" 33 true none none 9) =
      (twoMemberState, []) ∧
    applyOp twoMemberState (Op.control "P" "R1" "PLAY" none 9) = (twoMemberState, []) := by
  have hauth : ∀ room, getRoom twoMemberState.rooms "R1" = some room →
      room.leaderId ≠ some "P" := by
    intro room hroom
    have h2 : getRoom twoMemberState.rooms "R1" = some twoMemberRoom := by decide
    rw [h2] at hroom
    injection hroom with hroom
    rw [← hroom]
    decide
  exact C7_nonleader_messages_dropped twoMemberState "P" "R1" "PLAY" 33 true none none
    none 9 hauth

/-- C8: a leader-issued `control(SEEK, toTime)` with numeric `toTime = t` sets
`leaderMediaTime` to `t`, stamps `leaderServerTs = now`, keeps `isPlaying`
unchanged, and broadcasts the resulting canonical state to the whole room
(leader included); non-numeric `toTime` leaves the room unchanged apart from
the broadcast; on receiving the SEEK the follower adopts `t` and resets its
drift history. -/
theorem C8_seek_updates_and_broadcast (st : SrvState) (sender roomId : String)
    (room : Room) (t : ℚ) (now : Int)
    (hroom : getRoom st.rooms roomId = some room)
    (hlead : room.leaderId = some sender) :
    (getRoom (applyOp st (Op.control sender roomId "SEEK" (some t) now)).1.rooms roomId =
        some { room with leaderMediaTime := t, leaderServerTs := now } ∧
      (applyOp st (Op.control sender roomId "SEEK" (some t) now)).2 =
        [Emit.toRoom roomId (Msg.controlUpdate "SEEK" (some t) t now room.isPlaying)]) ∧
    getRoom (applyOp st (Op.control sender roomId "SEEK" none now)).1.rooms roomId =
      some room ∧
    (∀ (cs : ClientState) (leaderMediaTime leaderServerTs localNow : ℚ) (isP : Bool),
      (onControlUpdate cs "SEEK" (some t) leaderMediaTime leaderServerTs localNow
          isP).driftHistory = [] ∧
      (onControlUpdate cs "SEEK" (some t) leaderMediaTime leaderServerTs localNow
          isP).currentTime = t) := by
  have hnot : ¬ room.leaderId ≠ some sender := fun hne => hne hlead
  have hrun : onControl st sender roomId "SEEK" (some t) now =
      ({ st with rooms := oinsert st.rooms roomId { room with leaderMediaTime := t, leaderServerTs := now } },
       [Emit.toRoom roomId (Msg.controlUpdate "SEEK" (some t) t now room.isPlaying)]) := by
    unfold onControl
    rw [hroom]
    dsimp only
    rw [if_neg hnot]
    rw [if_neg (by decide : ¬ ("SEEK" : String) = "PLAY")]
    rw [if_neg (by decide : ¬ ("SEEK" : String) = "PAUSE")]
    rw [if_pos (rfl : ("SEEK" : String) = "SEEK")]
  have hrun2 : onControl st sender roomId "SEEK" none now =
      ({ st with rooms := oinsert st.rooms roomId room },
       [Emit.toRoom roomId
          (Msg.controlUpdate "SEEK" none room.leaderMediaTime room.leaderServerTs
            room.isPlaying)]) := by
    unfold onControl
    rw [hroom]
    dsimp only
    rw [if_neg hnot]
    rw [if_neg (by decide : ¬ ("SEEK" : String) = "PLAY")]
    rw [if_neg (by decide : ¬ ("SEEK" : String) = "PAUSE")]
    rw [if_pos (rfl : ("SEEK" : String) = "SEEK")]
  refine ⟨⟨?_, ?_⟩, ?_, ?_⟩
  · show getRoom (onControl st sender roomId "SEEK" (some t) now).1.rooms roomId = _
    rw [hrun]
    show olookup (oinsert st.rooms roomId _) roomId = _
    rw [olookup_oinsert, if_pos rfl]
  · show (onControl st sender roomId "SEEK" (some t) now).2 = _
    rw [hrun]
  · show getRoom (onControl st sender roomId "SEEK" none now).1.rooms roomId = _
    rw [hrun2]
    show olookup (oinsert st.rooms roomId room) roomId = _
    rw [olookup_oinsert, if_pos rfl]
  · intro cs leaderMediaTime leaderServerTs localNow isP
    constructor <;> rfl

theorem C8_witness :
    getRoom twoMemberState.rooms "R1" = some twoMemberRoom ∧
    twoMemberRoom.leaderId = some "L" ∧
    (applyOp twoMemberState (Op.control "L" "R1" "SEEK" (some 42) 7)).2 =
      [Emit.toRoom "R1"
         (Msg.controlUpdate "SEEK" (some 42) 42 7 twoMemberRoom.isPlaying)] ∧
    (∀ cs : ClientState,
      (onControlUpdate cs "SEEK" (some 42) 0 0 0 true).driftHistory = []) := by
  have h := C8_seek_updates_and_broadcast twoMemberState "L" "R1" twoMemberRoom 42 7
    (by decide) (by decide)
  exact ⟨by decide, by decide, h.1.2, fun cs => (h.2.2 cs 0 0 0 true).1⟩

/-- C9: disconnecting a socket cancels its parked join callback and removes
it from the connection set; and a stale approval never resurrects a vanished
connection — approving a pending request whose requester socket is gone adds
no participant, removes the pending request, and emits nothing. -/
theorem C9_stale_approval_ignored (st : SrvState) (sender roomId requestId : String)
    (room : Room) (request : PendingReq)
    (hroom : getRoom st.rooms roomId = some room)
    (hlead : room.leaderId = some sender)
    (hreq : olookup room.pendingRequests requestId = some request)
    (hgone : request.socketId ∉ st.connected) :
    getRoom (applyOp st (Op.approveParticipant sender roomId requestId)).1.rooms roomId =
      some { room with pendingRequests := oerase room.pendingRequests requestId } ∧
    (applyOp st (Op.approveParticipant sender roomId requestId)).2 = [] ∧
    olookup (applyOp st (Op.disconnect request.socketId)).1.joinCallbacks
      request.socketId = none ∧
    request.socketId ∉ (applyOp st (Op.disconnect request.socketId)).1.connected := by
  have hnot : ¬ room.leaderId ≠ some sender := fun hne => hne hlead
  have happrove : onApproveParticipant st sender roomId requestId =
      ({ st with rooms := oinsert st.rooms roomId { room with pendingRequests := oerase room.pendingRequests requestId } },
       []) := by
    unfold onApproveParticipant
    rw [hroom]
    dsimp only
    rw [if_neg hnot, hreq]
    dsimp only
    rw [if_neg (fun hc => hgone hc.1)]
  refine ⟨?_, ?_, ?_, ?_⟩
  · show getRoom (onApproveParticipant st sender roomId requestId).1.rooms roomId = _
    rw [happrove]
    show olookup (oinsert st.rooms roomId _) roomId = _
    rw [olookup_oinsert, if_pos rfl]
  · show (onApproveParticipant st sender roomId requestId).2 = []
    rw [happrove]
  · show olookup (onDisconnect st request.socketId).1.joinCallbacks request.socketId = none
    unfold onDisconnect
    dsimp only
    rw [olookup_oerase, if_pos rfl]
  · show request.socketId ∉ (onDisconnect st request.socketId).1.connected
    unfold onDisconnect
    dsimp only
    intro hmem
    have hf := List.mem_filter.mp hmem
    simp at hf

/-- The scenario: `L` opens room `R1`, `P` requests to join (parking a
callback), then `P` disconnects before the leader decides. -/
def staleOps : List Op :=
  [Op.connect "L",
   Op.joinRoom "L" "R1" "leo" none 0,
   Op.connect "P",
   Op.joinRoom "P" "R1" "pat" none 1,
   Op.disconnect "P"]

/-- The state reached by `staleOps`. -/
def staleState : SrvState := applyOps initState staleOps

/-- The room stored under `"R1"` in `staleState`: the pending request for the
vanished `P` is still there, but `P` holds no connection. -/
def staleRoom : Room :=
  { leaderId := some "L"
    mediaKind := none
    mediaRef := none
    isPlaying := false
    leaderMediaTime := 0
    leaderServerTs := 0
    participants := [("L", "leo")]
    pendingRequests := [("P_1", { socketId := "P", name := "pat", timestamp := 1 })]
    shareTokens := [] }

example : getRoom staleState.rooms "R1" = some staleRoom := by decide

example : "P" ∉ staleState.connected := by decide

theorem C9_witness :
    getRoom (applyOp staleState (Op.approveParticipant "L" "R1" "P_1")).1.rooms "R1" =
      some { staleRoom with pendingRequests := oerase staleRoom.pendingRequests "P_1" } ∧
    (applyOp staleState (Op.approveParticipant "L" "R1" "P_1")).2 = [] := by
  have h := C9_stale_approval_ignored staleState "L" "R1" "P_1" staleRoom
    { socketId := "P", name := "pat", timestamp := 1 }
    (by decide) (by decide) (by decide) (by decide)
  exact ⟨h.1, h.2.1⟩

/-- A leaderless yet inhabited room value: `addParticipant` on such a room
does change `leaderId`, refuting the unconditional idempotence claim. -/
def dupRoom : Room := { emptyRoom with participants := [("A", "alice")] }

/-- C10 (counterexample): re-adding the already-present participant `A` to a
room whose `leaderId` is null installs `A` as leader — `leaderId` changes
from `none` to `some "A"`, so the duplicate add is not idempotent on
leadership as claimed. -/
theorem C10_counterexample :
    (olookup dupRoom.participants "A").isSome = true ∧
    dupRoom.leaderId = none ∧
    (addParticipant [("R", dupRoom)] "R" "A" "alice").2.leaderId = some "A" := by
  decide

/-- C10 (amended): re-adding an existing participant to a room that has a
(non-empty) leader is idempotent on membership and leadership: the set of
participant keys, the `leaderId`, and all media/playback fields are
unchanged.  (When `leaderId` is null — unreachable for an inhabited room in
live registries — the duplicate add instead installs the participant as
leader.) -/
theorem C10_amended_duplicate_add (rooms : Registry) (roomId sockId name : String)
    (room : Room) (l : String)
    (hroom : olookup rooms roomId = some room)
    (hkey : (olookup room.participants sockId).isSome = true)
    (hlead : room.leaderId = some l) (hl : l ≠ "") :
    (∀ k, (olookup (addParticipant rooms roomId sockId name).2.participants k).isSome =
        (olookup room.participants k).isSome) ∧
    (addParticipant rooms roomId sockId name).2.leaderId = room.leaderId ∧
    (addParticipant rooms roomId sockId name).2.isPlaying = room.isPlaying ∧
    (addParticipant rooms roomId sockId name).2.leaderMediaTime = room.leaderMediaTime ∧
    (addParticipant rooms roomId sockId name).2.leaderServerTs = room.leaderServerTs ∧
    (addParticipant rooms roomId sockId name).2.mediaKind = room.mediaKind ∧
    (addParticipant rooms roomId sockId name).2.mediaRef = room.mediaRef := by
  have hbase : (createRoom rooms roomId).2 = room := by
    rw [createRoom_snd, hroom]
    rfl
  have htruthy : jsTruthy (createRoom rooms roomId).2.leaderId = true := by
    rw [hbase, hlead]
    simp [jsTruthy, hl]
  rw [addParticipant_snd, if_pos htruthy, hbase]
  refine ⟨?_, rfl, rfl, rfl, rfl, rfl, rfl⟩
  intro k
  dsimp only
  by_cases hk : sockId = k
  · subst hk
    rw [olookup_oinsert, if_pos rfl, hkey]
    rfl
  · rw [olookup_oinsert, if_neg hk]

/-- A room with leader `A` and a second participant `B`. -/
def wRoom : Room :=
  { emptyRoom with leaderId := some "A", participants := [("A", "alice"), ("B", "bob")] }

theorem C10_amended_witness :
    (olookup (addParticipant [("R", wRoom)] "R" "B" "bobby").2.participants "B").isSome =
      (olookup wRoom.participants "B").isSome ∧
    (addParticipant [("R", wRoom)] "R" "B" "bobby").2.leaderId = wRoom.leaderId := by
  have h := C10_amended_duplicate_add [("R", wRoom)] "R" "B" "bobby" wRoom "A"
    (by decide) (by decide) (by decide) (by decide)
  exact ⟨h.1 "B", h.2.1⟩

/-- C6: a `join_room` presenting a share token found in `shareTokens` of a
room with a leader admits the requester directly as a non-leader iff
`now < expiresAt`; otherwise the token is purged, the caller gets the
distinct expired-link error, and neither a participant nor a pending request
is created. -/
theorem C6_share_token_validity (st : SrvState) (sender roomId name lid tok : String)
    (room : Room) (td : TokenData) (now : Int)
    (hroom : getRoom st.rooms roomId = some room)
    (hlead : room.leaderId = some lid) (hlid : lid ≠ "") (htok : tok ≠ "")
    (hfound : olookup room.shareTokens tok = some td) :
    (now < td.expiresAt →
      ∃ room2,
        getRoom (applyOp st (Op.joinRoom sender roomId name (some tok) now)).1.rooms
            roomId = some room2 ∧
        (olookup room2.participants sender).isSome = true ∧
        room2.leaderId = room.leaderId ∧
        room2.pendingRequests = room.pendingRequests ∧
        (applyOp st (Op.joinRoom sender roomId name (some tok) now)).2 =
          [Emit.callbackTo sender (CbResp.ok sender false (roomSnap room2)),
           Emit.toRoomExcept roomId sender
             (Msg.participantJoined sender name room2.participants)]) ∧
    (¬ now < td.expiresAt →
      ∃ room2,
        getRoom (applyOp st (Op.joinRoom sender roomId name (some tok) now)).1.rooms
            roomId = some room2 ∧
        room2.participants = room.participants ∧
        room2.pendingRequests = room.pendingRequests ∧
        olookup room2.shareTokens tok = none ∧
        (applyOp st (Op.joinRoom sender roomId name (some tok) now)).2 =
          [Emit.callbackTo sender
             (CbResp.err
               "Share link has expired. Please request a new one from the room leader.")]) := by
  have hbase : (createRoom st.rooms roomId).2 = room := by
    rw [createRoom_snd]
    rw [show olookup st.rooms roomId = some room from hroom]
    rfl
  have hdispatch : applyOp st (Op.joinRoom sender roomId name (some tok) now) =
      (if now < td.expiresAt then onJoinRoomViaToken st sender roomId name
       else onJoinRoomExpiredToken st sender roomId tok room) := by
    show onJoinRoom st sender roomId name (some tok) now = _
    unfold onJoinRoom
    rw [hroom]
    dsimp only
    rw [hlead]
    dsimp only
    rw [if_neg hlid]
    rw [if_neg htok, hfound]
  constructor
  · intro hlt
    rw [hdispatch, if_pos hlt]
    refine ⟨(addParticipant st.rooms roomId sender name).2, ?_, ?_, ?_, ?_, ?_⟩
    · show getRoom (onJoinRoomViaToken st sender roomId name).1.rooms roomId = _
      unfold onJoinRoomViaToken
      dsimp only
      exact addParticipant_fst_lookup_self st.rooms roomId sender name
    · rw [addParticipant_snd]
      dsimp only
      rw [olookup_oinsert, if_pos rfl]
      rfl
    · rw [addParticipant_snd]
      dsimp only
      rw [hbase]
      rw [if_pos (show jsTruthy room.leaderId = true by rw [hlead]; simp [jsTruthy, hlid])]
    · rw [addParticipant_snd, hbase]
    · unfold onJoinRoomViaToken
      dsimp only
  · intro hge
    rw [hdispatch, if_neg hge]
    refine ⟨{ room with shareTokens := oerase room.shareTokens tok }, ?_, rfl, rfl, ?_, ?_⟩
    · show getRoom (onJoinRoomExpiredToken st sender roomId tok room).1.rooms roomId = _
      unfold onJoinRoomExpiredToken
      dsimp only
      show olookup (oinsert st.rooms roomId _) roomId = _
      rw [olookup_oinsert, if_pos rfl]
    · dsimp only
      rw [olookup_oerase, if_pos rfl]
    · unfold onJoinRoomExpiredToken
      dsimp only

/-- A concrete state with a share token: `L` opens `R1` and mints token
`tok1` at time 0, which therefore expires at `86400000` (24 h later). -/
def tokenState : SrvState :=
  applyOps initState
    [Op.connect "L",
     Op.joinRoom "L" "R1" "leo" none 0,
     Op.createShareToken "L" "R1" "tok1" 0]

/-- The token record minted in `tokenState`. -/
def tokenTd : TokenData := { createdAt := 0, createdBy := "L", expiresAt := 86400000 }

/-- The room stored under `"R1"` in `tokenState`. -/
def tokenRoom : Room :=
  { leaderId := some "L"
    mediaKind := none
    mediaRef := none
    isPlaying := false
    leaderMediaTime := 0
    leaderServerTs := 0
    participants := [("L", "leo")]
    pendingRequests := []
    shareTokens := [("tok1", tokenTd)] }

example : getRoom tokenState.rooms "R1" = some tokenRoom := by decide

theorem C6_share_token_validity_witness :
    ((86399999 : Int) < tokenTd.expiresAt ∧ ¬ ((86400001 : Int) < tokenTd.expiresAt)) ∧
    (∃ room2,
      getRoom (applyOp tokenState
          (Op.joinRoom "P" "R1" "pat" (some "tok1") 86399999)).1.rooms "R1" =
        some room2 ∧
      (olookup room2.participants "P").isSome = true) ∧
    (applyOp tokenState (Op.joinRoom "P" "R1" "pat" (some "tok1") 86400001)).2 =
      [Emit.callbackTo "P"
         (CbResp.err
           "Share link has expired. Please request a new one from the room leader.")] := by
  have h1 := C6_share_token_validity tokenState "P" "R1" "pat" "L" "tok1" tokenRoom
    tokenTd 86399999 (by decide) (by decide) (by decide) (by decide) (by decide)
  have h2 := C6_share_token_validity tokenState "P" "R1" "pat" "L" "tok1" tokenRoom
    tokenTd 86400001 (by decide) (by decide) (by decide) (by decide) (by decide)
  obtain ⟨room2, hg, hk, _, _, _⟩ := h1.1 (by decide)
  obtain ⟨room3, _, _, _, _, hemits⟩ := h2.2 (by decide)
  exact ⟨by decide, ⟨room2, hg, hk⟩, hemits⟩

end SyncStream
